import Mathlib

/-!
Verification of the concurrent measurement engine of `llmapibenchmark`
(`src/internal/utils/speed.go` and `src/cmd/benchmark.go`).

Shallow embedding conventions:
* Go `float64` values that stay finite are modelled as exact rationals (`ℚ`).
* The three throughput fields are the only places the source divides by a
  quantity that can be zero, so they are modelled with `FloatVal`, which keeps
  the IEEE-754 outcomes of Go float division (`±Inf`, `NaN`) explicit.  Go
  float division never panics; correspondingly `goDiv` is total.
* `math.Round` rounds half away from zero; `goRound` mirrors that on `ℚ`.
* `math.Sqrt` is modelled by `Rat.sqrt`, which agrees with the real square
  root at `0` and at squares of rationals; every evaluation of it in this
  development happens at such a point.
* The fanout (`Run`, lines 101-124) launches one worker per index
  `0 ≤ i < Concurrency`; each worker either fails (no data) or succeeds with a
  `(ttft, completionTokens, promptTokens)` triple.  The external streaming
  client is out of scope, so a run is parametrised by the per-worker outcome
  list and by the measured wall-clock duration.  The `sync.Map` accumulators
  are keyed by worker index and the reduction only uses order-independent
  folds (sums, min, max, count) or sorts, so iterating the outcomes in index
  order is faithful.
-/

/-- Result of one Go float64 division: a finite rational or one of the IEEE
non-finite outcomes.  Go produces `+Inf`, `-Inf` or `NaN` for a zero
denominator and never raises a fault for float division. -/
inductive FloatVal where
  | fin (q : ℚ)
  | posInf
  | negInf
  | nan
deriving DecidableEq, Repr

/-- Whether a `FloatVal` is a finite number (neither infinite nor `NaN`). -/
def FloatVal.isFinite : FloatVal → Bool
  | .fin _ => true
  | _ => false

/-- Go float64 division.  The denominators produced by `Run` are differences
`x - y` of finite values, which IEEE-754 evaluates to `+0.0` when `x = y`, so
a zero denominator always carries positive sign: `num/0` is `+Inf` for a
positive numerator, `-Inf` for a negative one and `NaN` for `0/0`. -/
def goDiv (num den : ℚ) : FloatVal :=
  if den = 0 then
    if num = 0 then FloatVal.nan
    else if num > 0 then FloatVal.posInf
    else FloatVal.negInf
  else FloatVal.fin (num / den)

/-- Go `math.Round`: the nearest integer, rounding half away from zero. -/
def goRound (q : ℚ) : ℚ :=
  if q < 0 then -((⌊-q + 1/2⌋ : ℤ) : ℚ) else ((⌊q + 1/2⌋ : ℤ) : ℚ)

/-- `roundToTwoDecimals` (speed.go line 51): `math.Round(f*100) / 100`. -/
def roundToTwoDecimals (f : ℚ) : ℚ :=
  goRound (f * 100) / 100

/-- `roundToTwoDecimals` lifted to `FloatVal`: `math.Round` maps `NaN` and
`±Inf` to themselves, and dividing them by `100` keeps them. -/
def roundToTwoDecimalsF : FloatVal → FloatVal
  | .fin q => .fin (roundToTwoDecimals q)
  | v => v

/-- `calculatePercentile` (speed.go lines 55-71): sort ascending, take the
element at index `ceil(len*percentile) - 1` clamped into `[0, len-1]`;
`0` for an empty slice. -/
def calculatePercentile (values : List ℚ) (percentile : ℚ) : ℚ :=
  if values.length = 0 then 0
  else
    let sorted := List.insertionSort (fun a b => a ≤ b) values
    let index : ℤ := ⌈(values.length : ℚ) * percentile⌉ - 1
    let index : ℤ := if index < 0 then 0 else index
    let index : ℤ := if index ≥ (sorted.length : ℤ) then (sorted.length : ℤ) - 1 else index
    sorted.getD index.toNat 0

/-- `calculateStdDev` (speed.go lines 73-82): `sqrt(sum((v-mean)^2) / len)`,
`0` for an empty slice.  The mean is whatever the caller passes in. -/
def calculateStdDev (values : List ℚ) (mean : ℚ) : ℚ :=
  if values.length = 0 then 0
  else Rat.sqrt ((values.map (fun v => (v - mean) ^ 2)).sum / (values.length : ℚ))

/-- One successful request as recorded by a worker goroutine (speed.go lines
103-121): its time-to-first-token in seconds and its two token counts. -/
structure Sample where
  ttft : ℚ
  completionTokens : Int
  promptTokens : Int
deriving DecidableEq, Repr

/-- `SpeedMeasurement` (speed.go lines 16-27).  The endpoint, key, model and
prompt fields only configure the external streaming client, which is modelled
by the per-worker outcome list handed to `Run`. -/
structure SpeedMeasurement where
  BaseUrl : String
  ApiVersion : String
  ApiKey : String
  ModelName : String
  Prompt : String
  UseRandomInput : Bool
  NumWords : Int
  MaxTokens : Int
  Latency : ℚ
  Concurrency : Int
deriving DecidableEq, Repr

/-- `SpeedResult` (speed.go lines 29-49). -/
structure SpeedResult where
  Concurrency : Int
  GenerationSpeed : FloatVal
  PromptThroughput : FloatVal
  TotalThroughput : FloatVal
  MaxTtft : ℚ
  MinTtft : ℚ
  AvgTtft : ℚ
  MedianTtft : ℚ
  P95Ttft : ℚ
  P99Ttft : ℚ
  StdDevTtft : ℚ
  SuccessRate : ℚ
  SuccessfulRequests : Int
  FailedRequests : Int
  TotalPromptTokens : Int
  TotalCompletionTokens : Int
  AvgPromptTokens : ℚ
  AvgCompletionTokens : ℚ
  Duration : ℚ
deriving DecidableEq, Repr

/-- The successful samples of a run: the entries the workers stored into the
three `sync.Map`s (failed workers store nothing, speed.go lines 113-120). -/
def successSamples (outcomes : List (Option Sample)) : List Sample :=
  outcomes.filterMap id

/-- The TTFT values collected for statistics (speed.go lines 154-158). -/
def ttftValuesOf (outcomes : List (Option Sample)) : List ℚ :=
  (successSamples outcomes).map Sample.ttft

/-- `totalPromptTokens` (speed.go lines 134-138). -/
def totalPromptTokensOf (outcomes : List (Option Sample)) : Int :=
  ((successSamples outcomes).map Sample.promptTokens).sum

/-- `totalResponseTokens` (speed.go lines 128-132). -/
def totalCompletionTokensOf (outcomes : List (Option Sample)) : Int :=
  ((successSamples outcomes).map Sample.completionTokens).sum

/-- `Run` (speed.go lines 85-205), the fanout plus the statistics reduction.
`outcomes` holds one entry per launched worker (`outcomes.length =
Concurrency.toNat`; the Go loop body runs once per `0 ≤ i < Concurrency` and
never for `Concurrency ≤ 0`); `duration` is the wall-clock time measured
between `start` and the join of all workers.  Returns the result record and
the error value, which the source fixes to `nil` in its single return. -/
def SpeedMeasurement.Run (setup : SpeedMeasurement) (outcomes : List (Option Sample))
    (duration : ℚ) : SpeedResult × Option String :=
  let totalResponseTokens : Int := totalCompletionTokensOf outcomes
  let totalPromptTokens : Int := totalPromptTokensOf outcomes
  let successfulRequests : Int := ((outcomes.filter fun o => o.isSome).length : ℤ)
  let failedRequests : Int := ((outcomes.filter fun o => o.isNone).length : ℤ)
  let successRate : ℚ :=
    if setup.Concurrency > 0 then (successfulRequests : ℚ) / ((setup.Concurrency : ℤ) : ℚ) else 0
  let ttftValues : List ℚ := ttftValuesOf outcomes
  let rawMaxTtft : ℚ :=
    if ttftValues.length > 0 then
      ttftValues.foldl (fun m t => if t > m then t else m) (ttftValues.headD 0)
    else 0
  let rawMinTtft : ℚ :=
    if ttftValues.length > 0 then
      ttftValues.foldl (fun m t => if t < m then t else m) (ttftValues.headD 0)
    else 0
  let avgTtft : ℚ :=
    if ttftValues.length > 0 then
      roundToTwoDecimals (ttftValues.sum / (ttftValues.length : ℚ))
    else 0
  let medianTtft : ℚ :=
    if ttftValues.length > 0 then roundToTwoDecimals (calculatePercentile ttftValues (1/2))
    else 0
  let p95Ttft : ℚ :=
    if ttftValues.length > 0 then roundToTwoDecimals (calculatePercentile ttftValues (19/20))
    else 0
  let p99Ttft : ℚ :=
    if ttftValues.length > 0 then roundToTwoDecimals (calculatePercentile ttftValues (99/100))
    else 0
  let stdDevTtft : ℚ :=
    if ttftValues.length > 0 then roundToTwoDecimals (calculateStdDev ttftValues avgTtft)
    else 0
  let maxTtft : ℚ := roundToTwoDecimals rawMaxTtft
  let minTtft : ℚ := roundToTwoDecimals rawMinTtft
  let avgPromptTokens : ℚ :=
    if successfulRequests > 0 then
      roundToTwoDecimals ((totalPromptTokens : ℚ) / (successfulRequests : ℚ))
    else 0
  let avgCompletionTokens : ℚ :=
    if successfulRequests > 0 then
      roundToTwoDecimals ((totalResponseTokens : ℚ) / (successfulRequests : ℚ))
    else 0
  ({ Concurrency := setup.Concurrency
     GenerationSpeed :=
       roundToTwoDecimalsF (goDiv (totalResponseTokens : ℚ) (duration - setup.Latency / 1000))
     PromptThroughput :=
       roundToTwoDecimalsF (goDiv (totalPromptTokens : ℚ) (maxTtft - setup.Latency / 1000))
     TotalThroughput :=
       roundToTwoDecimalsF
         (goDiv ((totalPromptTokens : ℚ) + (totalResponseTokens : ℚ))
           (duration - setup.Latency / 1000))
     MaxTtft := maxTtft
     MinTtft := minTtft
     AvgTtft := avgTtft
     MedianTtft := medianTtft
     P95Ttft := p95Ttft
     P99Ttft := p99Ttft
     StdDevTtft := stdDevTtft
     SuccessRate := successRate
     SuccessfulRequests := successfulRequests
     FailedRequests := failedRequests
     TotalPromptTokens := totalPromptTokens
     TotalCompletionTokens := totalResponseTokens
     AvgPromptTokens := avgPromptTokens
     AvgCompletionTokens := avgCompletionTokens
     Duration := roundToTwoDecimals duration }, none)

/-- A configuration with the given latency (ms) and concurrency; the client
configuration fields do not influence the reduction. -/
def mkSetup (latency : ℚ) (concurrency : Int) : SpeedMeasurement :=
  { BaseUrl := "", ApiVersion := "", ApiKey := "", ModelName := "",
    Prompt := "", UseRandomInput := false, NumWords := 0, MaxTokens := 512,
    Latency := latency, Concurrency := concurrency }

/-- The prompt-throughput formula exactly as the spec words it (§4.2):
`totalPromptTokens / (maxTtft_seconds - baselineLatencyMs/1000)` with the
full-precision maximum observed TTFT. -/
def promptThroughputSpec (totalPromptTokens : Int) (maxTtftSeconds latencyMs : ℚ) : ℚ :=
  (totalPromptTokens : ℚ) / (maxTtftSeconds - latencyMs / 1000)

/-- The population standard deviation exactly as the spec words it (§4.2):
`sqrt(mean((x_i - mean)^2))` with the full-precision mean of the values. -/
def popStdDevSpec (values : List ℚ) : ℚ :=
  Rat.sqrt ((values.map (fun v => (v - values.sum / (values.length : ℚ)) ^ 2)).sum
    / (values.length : ℚ))

/-- Maximum of a list of rationals the way the reduction loop computes it
(speed.go lines 162-173): fold from the first element. -/
def listMax (l : List ℚ) : ℚ :=
  l.foldl max (l.headD 0)

/-- Modelled from the spec: `utils.ParseConcurrencyLevels`, called by `main`
(src/cmd/benchmark.go lines 231-235), is not among the repository files under
src/.  Per §7 and §8 of the spec, configuration validation rejects any
concurrency level `≤ 0` with an error before any fanout is launched (`main`
aborts on that error).  Splitting the flag string into integers is plain
parsing and is abstracted: the model takes the integer list. -/
def ParseConcurrencyLevels (levels : List Int) : Except String (List Int) :=
  if levels.all (fun n => decide (0 < n)) then Except.ok levels
  else Except.error "concurrency levels must be positive"

/-! Helper lemmas shared by several claims. -/

theorem filter_isSome_add_isNone (outcomes : List (Option Sample)) :
    (outcomes.filter fun o => o.isSome).length + (outcomes.filter fun o => o.isNone).length
      = outcomes.length := by
  induction outcomes with
  | nil => simp
  | cons o rest ih => cases o <;> simp [List.filter, ih] <;> omega

theorem successSamples_nil_of_all_none {outcomes : List (Option Sample)}
    (h : ∀ o ∈ outcomes, o = none) : successSamples outcomes = [] := by
  unfold successSamples
  exact List.filterMap_eq_nil_iff.mpr h

theorem foldl_if_gt_eq_foldl_max (l : List ℚ) (init : ℚ) :
    l.foldl (fun m t => if t > m then t else m) init = l.foldl max init := by
  have hf : (fun (m t : ℚ) => if t > m then t else m) = fun m t => max m t := by
    funext m t
    rcases le_or_lt t m with h | h
    · simp [not_lt.mpr h, max_eq_left h]
    · simp [h, max_eq_right h.le]
  rw [hf]

theorem le_foldl_max (l : List ℚ) (init : ℚ) : init ≤ l.foldl max init := by
  induction l generalizing init with
  | nil => simp
  | cons a rest ih => exact le_trans (le_max_left init a) (ih (max init a))

theorem mem_le_foldl_max (l : List ℚ) (init : ℚ) (x : ℚ) (hx : x ∈ l) :
    x ≤ l.foldl max init := by
  induction l generalizing init with
  | nil => cases hx
  | cons a rest ih =>
    rcases List.mem_cons.mp hx with rfl | hmem
    · exact le_trans (le_max_right init x) (le_foldl_max rest _)
    · exact ih (max init a) hmem

theorem foldl_max_mem (l : List ℚ) (init : ℚ) :
    l.foldl max init = init ∨ l.foldl max init ∈ l := by
  induction l generalizing init with
  | nil => exact Or.inl rfl
  | cons a rest ih =>
    rcases ih (max init a) with h | h
    · rcases max_cases init a with ⟨he, _⟩ | ⟨he, _⟩
      · rw [List.foldl_cons, h, he]
        exact Or.inl rfl
      · rw [List.foldl_cons, h, he]
        exact Or.inr (List.mem_cons_self a rest)
    · exact Or.inr (List.mem_cons_of_mem a h)

theorem listMax_mem (l : List ℚ) (h : l ≠ []) : listMax l ∈ l := by
  unfold listMax
  rcases foldl_max_mem l (l.headD 0) with he | hm
  · rw [he]
    cases l with
    | nil => exact absurd rfl h
    | cons a rest => exact List.mem_cons_self a rest
  · exact hm

theorem le_listMax (l : List ℚ) (x : ℚ) (hx : x ∈ l) : x ≤ listMax l :=
  mem_le_foldl_max l _ x hx

theorem sorted_le_getD_last {l : List ℚ} (hs : List.Sorted (fun a b => a ≤ b) l)
    (x : ℚ) (hx : x ∈ l) : x ≤ l.getD (l.length - 1) 0 := by
  obtain ⟨i, hi⟩ := List.mem_iff_get.mp hx
  have hlen : 0 < l.length := List.length_pos.mpr (List.ne_nil_of_mem hx)
  have hlt : l.length - 1 < l.length := by omega
  rw [List.getD_eq_getElem?_getD, List.getElem?_eq_getElem hlt, Option.getD_some]
  have hle : i ≤ (⟨l.length - 1, hlt⟩ : Fin l.length) := by
    have := i.isLt
    exact Fin.mk_le_mk.mpr (by omega)
  calc x = l.get i := hi.symm
    _ ≤ l.get ⟨l.length - 1, hlt⟩ := hs.rel_get_of_le hle
    _ = l[l.length - 1] := List.get_eq_getElem l _

theorem getD_last_mem {l : List ℚ} (h : l ≠ []) : l.getD (l.length - 1) 0 ∈ l := by
  have hlen : 0 < l.length := List.length_pos.mpr h
  have hlt : l.length - 1 < l.length := by omega
  rw [List.getD_eq_getElem?_getD, List.getElem?_eq_getElem hlt, Option.getD_some]
  exact List.getElem_mem hlt

theorem calculatePercentile_one_eq_getD_last (values : List ℚ) (h : values ≠ []) :
    calculatePercentile values 1 =
      (List.insertionSort (fun a b => a ≤ b) values).getD (values.length - 1) 0 := by
  have hlen : 0 < values.length := List.length_pos.mpr h
  have hceil : (⌈(values.length : ℚ) * 1⌉ : ℤ) - 1 = (values.length : ℤ) - 1 := by
    rw [mul_one, Int.ceil_natCast]
  simp only [calculatePercentile, List.length_insertionSort, hceil]
  split_ifs <;> first | omega | (congr 1; omega)

/-- C6: `calculatePercentile` sorts the values ascending and returns the
element at nearest-rank index `ceil(len*p) - 1`, clamped into `[0, len-1]`,
with no interpolation: consequently percentile `1.0` is the maximum of the
values, a singleton list yields its one value for every `p` in `(0, 1]`, and
the median of `[0.1, 0.2, 0.3, 0.4]` is `0.2`. -/
theorem C6_percentile_nearest_rank :
    (∀ values : List ℚ, values ≠ [] →
        calculatePercentile values 1 ∈ values
          ∧ ∀ x ∈ values, x ≤ calculatePercentile values 1)
    ∧ (∀ v p : ℚ, 0 < p → p ≤ 1 → calculatePercentile [v] p = v)
    ∧ calculatePercentile [1/10, 2/10, 3/10, 4/10] (1/2) = 2/10
    ∧ (∀ (values : List ℚ) (p : ℚ), values ≠ [] →
        calculatePercentile values p =
          (List.insertionSort (fun a b => a ≤ b) values).getD
            (min (max (⌈(values.length : ℚ) * p⌉ - 1) 0) ((values.length : ℤ) - 1)).toNat 0) := by
  refine ⟨?_, ?_, ?_, ?_⟩
  · intro values hne
    have hlen : 0 < values.length := List.length_pos.mpr hne
    have hslen : (List.insertionSort (fun a b => a ≤ b) values).length = values.length :=
      List.length_insertionSort (fun a b => a ≤ b) values
    have hsne : List.insertionSort (fun a b => a ≤ b) values ≠ [] := by
      intro hc
      rw [hc] at hslen
      simp only [List.length_nil] at hslen
      omega
    rw [calculatePercentile_one_eq_getD_last values hne]
    have hlenr : values.length - 1 = (List.insertionSort (fun a b => a ≤ b) values).length - 1 := by
      rw [hslen]
    constructor
    · rw [hlenr]
      exact (List.mem_insertionSort _).mp (getD_last_mem hsne)
    · intro x hx
      rw [hlenr]
      exact sorted_le_getD_last (List.sorted_insertionSort _ _) x
        ((List.mem_insertionSort _).mpr hx)
  · intro v p hp0 hp1
    have hceil : (⌈p⌉ : ℤ) = 1 := by
      have hle : ⌈p⌉ ≤ 1 := Int.ceil_le.mpr (by exact_mod_cast hp1)
      have hgt : (0 : ℤ) < ⌈p⌉ := Int.lt_ceil.mpr (by exact_mod_cast hp0)
      omega
    simp only [calculatePercentile, List.insertionSort, List.orderedInsert, List.length_cons,
      List.length_nil]
    norm_num
    rw [hceil]
    norm_num [List.getD]
  · norm_num [calculatePercentile, List.insertionSort, List.orderedInsert]
  · intro values p hne
    have hlen : 0 < values.length := List.length_pos.mpr hne
    simp only [calculatePercentile, List.length_insertionSort]
    rw [if_neg (by omega)]
    congr 1
    split_ifs <;> omega

/-- C8: after the fanout joins all workers, `SuccessfulRequests +
FailedRequests` equals the configured concurrency `N` exactly (for `N ≥ 1`,
with one outcome recorded per launched worker), the success rate is
`SuccessfulRequests / N` with `N` the configured concurrency, and `N = 0` is
guarded to a success rate of `0` instead of a division by zero. -/
theorem C8_success_accounting (setup : SpeedMeasurement) (outcomes : List (Option Sample))
    (duration : ℚ) (hlen : outcomes.length = setup.Concurrency.toNat) :
    (1 ≤ setup.Concurrency →
      (setup.Run outcomes duration).1.SuccessfulRequests
          + (setup.Run outcomes duration).1.FailedRequests = setup.Concurrency
        ∧ (setup.Run outcomes duration).1.SuccessRate =
            (((setup.Run outcomes duration).1.SuccessfulRequests : ℤ) : ℚ)
              / ((setup.Concurrency : ℤ) : ℚ))
    ∧ (setup.Concurrency = 0 → (setup.Run outcomes duration).1.SuccessRate = 0) := by
  have hsum := filter_isSome_add_isNone outcomes
  simp only [SpeedMeasurement.Run]
  constructor
  · intro hN
    constructor
    · rw [hlen] at hsum
      omega
    · rw [if_pos (by omega)]
  · intro h0
    rw [h0]
    norm_num

theorem C8_success_accounting_witness :
    ((mkSetup 0 2).Run [some ⟨1/2, 5, 7⟩, none] 1).1.SuccessfulRequests
        + ((mkSetup 0 2).Run [some ⟨1/2, 5, 7⟩, none] 1).1.FailedRequests = 2 :=
  ((C8_success_accounting (mkSetup 0 2) [some ⟨1/2, 5, 7⟩, none] 1 rfl).1
    (by norm_num [mkSetup])).1

/-- C9 (spec-modelled): a configuration holding any concurrency level `≤ 0`
is rejected by configuration validation with a hard error before any fanout
is launched, and a configuration that validation accepts holds only positive
levels, so an invalid concurrency level never reaches the reducer. -/
theorem C9_nonpositive_concurrency_rejected :
    (∀ levels : List Int, (∃ n ∈ levels, n ≤ 0) →
        ParseConcurrencyLevels levels = Except.error "concurrency levels must be positive")
    ∧ (∀ levels ok, ParseConcurrencyLevels levels = Except.ok ok → ∀ n ∈ ok, 0 < n) := by
  constructor
  · rintro levels ⟨n, hn, hle⟩
    unfold ParseConcurrencyLevels
    rw [if_neg]
    intro hall
    have hpos := List.all_eq_true.mp hall n hn
    rw [decide_eq_true_eq] at hpos
    omega
  · intro levels ok hok n hn
    unfold ParseConcurrencyLevels at hok
    by_cases hall : levels.all (fun n => decide (0 < n)) = true
    · rw [if_pos hall] at hok
      cases hok
      have hpos := List.all_eq_true.mp hall n hn
      rwa [decide_eq_true_eq] at hpos
    · rw [if_neg hall] at hok
      cases hok

/-- C10: `Run` returns a nil error for every configuration (a concurrency of
zero or below included) and every pattern of per-request outcomes (all `N`
requests failing included); request failures surface only through the
FailedRequests count and thereby the success rate, never as an error to the
caller. -/
theorem C10_run_never_errors (setup : SpeedMeasurement) (outcomes : List (Option Sample))
    (duration : ℚ) :
    (setup.Run outcomes duration).2 = none
      ∧ (setup.Run outcomes duration).1.FailedRequests
          = ((outcomes.filter fun o => o.isNone).length : ℤ) :=
  ⟨rfl, rfl⟩

theorem roundTwoF_goDiv_of_den_ne (num den : ℚ) (h : den ≠ 0) :
    roundToTwoDecimalsF (goDiv num den) = FloatVal.fin (roundToTwoDecimals (num / den)) := by
  rw [goDiv, if_neg h]
  rfl

theorem roundTwoF_goDiv_of_den_zero (num den : ℚ) (h : den = 0) :
    (roundToTwoDecimalsF (goDiv num den)).isFinite = false := by
  subst h
  rw [goDiv, if_pos rfl]
  by_cases h0 : num = 0
  · rw [if_pos h0]
    rfl
  · rw [if_neg h0]
    by_cases hp : num > 0
    · rw [if_pos hp]
      rfl
    · rw [if_neg hp]
      rfl

/-- C5: the generation speed is `totalCompletionTokens / (duration_seconds -
baselineLatencyMs/1000)` and the total throughput is `(totalPromptTokens +
totalCompletionTokens)` over the same latency-corrected denominator, each
under the final two-decimal presentation rounding of §3; in the concrete
scenario totalCompletionTokens = 1000, duration = 10 s, baselineLatencyMs = 0
the generation speed is exactly 100 tokens/sec. -/
theorem C5_generation_total_throughput (setup : SpeedMeasurement)
    (outcomes : List (Option Sample)) (duration : ℚ)
    (hden : duration - setup.Latency / 1000 ≠ 0) :
    (setup.Run outcomes duration).1.GenerationSpeed =
        FloatVal.fin (roundToTwoDecimals ((totalCompletionTokensOf outcomes : ℚ)
          / (duration - setup.Latency / 1000)))
      ∧ (setup.Run outcomes duration).1.TotalThroughput =
        FloatVal.fin (roundToTwoDecimals (((totalPromptTokensOf outcomes : ℚ)
            + (totalCompletionTokensOf outcomes : ℚ))
          / (duration - setup.Latency / 1000)))
      ∧ ((mkSetup 0 1).Run [some ⟨1/2, 1000, 25⟩] 10).1.GenerationSpeed = FloatVal.fin 100 := by
  refine ⟨?_, ?_, ?_⟩
  · simp only [SpeedMeasurement.Run]
    exact roundTwoF_goDiv_of_den_ne _ _ hden
  · simp only [SpeedMeasurement.Run]
    exact roundTwoF_goDiv_of_den_ne _ _ hden
  · simp only [SpeedMeasurement.Run, mkSetup, totalCompletionTokensOf, successSamples]
    norm_num [goDiv, roundToTwoDecimalsF, roundToTwoDecimals, goRound, List.filterMap_cons,
      List.sum_cons]

theorem C5_generation_total_throughput_witness :
    ((mkSetup 0 1).Run [some ⟨1/2, 1000, 25⟩] 10).1.GenerationSpeed = FloatVal.fin 100 :=
  (C5_generation_total_throughput (mkSetup 0 1) [some ⟨1/2, 1000, 25⟩] 10
    (by norm_num [mkSetup])).2.2

/-- C1 counterexample: with totalCompletionTokens = 1000, duration = 1 s and
baselineLatencyMs = 2000 the latency-corrected denominator is negative and
the reducer reports a generation speed of -1000: a finite, negative, unmarked
number, not a zero, non-finite or flagged sentinel. -/
theorem C1_counterexample :
    ((mkSetup 2000 1).Run [some ⟨1/2, 1000, 0⟩] 1).1.GenerationSpeed = FloatVal.fin (-1000)
      ∧ (1 : ℚ) - 2000 / 1000 < 0
      ∧ FloatVal.fin (-1000) ≠ FloatVal.fin 0
      ∧ (FloatVal.fin (-1000)).isFinite = true
      ∧ (-1000 : ℚ) < 0 := by
  refine ⟨?_, by norm_num, ?_, rfl, by norm_num⟩
  · simp only [SpeedMeasurement.Run, mkSetup, totalCompletionTokensOf, successSamples]
    norm_num [goDiv, roundToTwoDecimalsF, roundToTwoDecimals, goRound, List.filterMap_cons,
      List.sum_cons]
  · simp only [ne_eq, FloatVal.fin.injEq]
    norm_num

/-- C1 (amended): the reducer never raises an arithmetic fault, and when a
latency-corrected denominator is exactly zero the affected throughput field
is a non-finite IEEE value (Inf or NaN); but when the denominator is negative
the field is the ordinary finite value `round2(numerator/denominator)` with
no guard, silently negative for a positive numerator of sufficient size, so
no zero or flagged sentinel is produced in that case. -/
theorem C1_denominator_not_guarded (setup : SpeedMeasurement)
    (outcomes : List (Option Sample)) (duration : ℚ) :
    (duration - setup.Latency / 1000 = 0 →
        ((setup.Run outcomes duration).1.GenerationSpeed.isFinite = false
          ∧ (setup.Run outcomes duration).1.TotalThroughput.isFinite = false))
      ∧ ((setup.Run outcomes duration).1.MaxTtft - setup.Latency / 1000 = 0 →
        (setup.Run outcomes duration).1.PromptThroughput.isFinite = false)
      ∧ (duration - setup.Latency / 1000 ≠ 0 →
        (setup.Run outcomes duration).1.GenerationSpeed =
          FloatVal.fin (roundToTwoDecimals ((totalCompletionTokensOf outcomes : ℚ)
            / (duration - setup.Latency / 1000)))) := by
  refine ⟨fun h => ⟨?_, ?_⟩, fun h => ?_, fun h => ?_⟩
  · simp only [SpeedMeasurement.Run]
    exact roundTwoF_goDiv_of_den_zero _ _ h
  · simp only [SpeedMeasurement.Run]
    exact roundTwoF_goDiv_of_den_zero _ _ h
  · simp only [SpeedMeasurement.Run] at h ⊢
    exact roundTwoF_goDiv_of_den_zero _ _ h
  · simp only [SpeedMeasurement.Run]
    exact roundTwoF_goDiv_of_den_ne _ _ h

/-- C2 counterexample: when the single request fails and the baseline latency
is 0 ms, the prompt-throughput denominator is `0 - 0` and the reducer reports
`0/0 = NaN` for the prompt throughput, not zero. -/
theorem C2_counterexample :
    ((mkSetup 0 1).Run [none] 2).1.PromptThroughput = FloatVal.nan
      ∧ FloatVal.nan ≠ FloatVal.fin 0 := by
  constructor
  · simp only [SpeedMeasurement.Run, mkSetup, totalPromptTokensOf, successSamples, ttftValuesOf]
    norm_num [goDiv, roundToTwoDecimalsF, roundToTwoDecimals, goRound, List.filterMap_cons]
  · intro h
    exact FloatVal.noConfusion h

/-- C2 (amended): when zero requests succeed, every TTFT statistic and both
average-token fields are zero, the success rate is zero, and the three
throughput figures are exactly zero provided the latency-corrected
denominators are nonzero (baseline latency nonzero for the prompt
throughput, duration distinct from baselineLatency/1000 for the other two);
when such a denominator is exactly zero the affected figure is `NaN`
instead, as the counterexample shows. -/
theorem C2_all_failures_zero (setup : SpeedMeasurement)
    (outcomes : List (Option Sample)) (duration : ℚ)
    (hall : ∀ o ∈ outcomes, o = none)
    (hlat : setup.Latency ≠ 0)
    (hdur : duration - setup.Latency / 1000 ≠ 0) :
    (setup.Run outcomes duration).1 =
      { Concurrency := setup.Concurrency
        GenerationSpeed := FloatVal.fin 0
        PromptThroughput := FloatVal.fin 0
        TotalThroughput := FloatVal.fin 0
        MaxTtft := 0
        MinTtft := 0
        AvgTtft := 0
        MedianTtft := 0
        P95Ttft := 0
        P99Ttft := 0
        StdDevTtft := 0
        SuccessRate := 0
        SuccessfulRequests := 0
        FailedRequests := (outcomes.length : ℤ)
        TotalPromptTokens := 0
        TotalCompletionTokens := 0
        AvgPromptTokens := 0
        AvgCompletionTokens := 0
        Duration := roundToTwoDecimals duration } := by
  have hss : successSamples outcomes = [] := successSamples_nil_of_all_none hall
  have htv : ttftValuesOf outcomes = [] := by rw [ttftValuesOf, hss]; rfl
  have hP : totalPromptTokensOf outcomes = 0 := by rw [totalPromptTokensOf, hss]; rfl
  have hC : totalCompletionTokensOf outcomes = 0 := by rw [totalCompletionTokensOf, hss]; rfl
  have hfil : outcomes.filter (fun o => o.isSome) = [] :=
    List.filter_eq_nil_iff.mpr fun a ha => by simp [hall a ha]
  have hfn : outcomes.filter (fun o => o.isNone) = outcomes :=
    List.filter_eq_self.mpr fun a ha => by simp [hall a ha]
  have h0 : roundToTwoDecimals 0 = 0 := by norm_num [roundToTwoDecimals, goRound]
  have hneg : (0 : ℚ) - setup.Latency / 1000 ≠ 0 := by
    intro hc
    apply hlat
    have : setup.Latency / 1000 = 0 := by linarith
    field_simp at this
    exact this
  simp only [SpeedMeasurement.Run, htv, hP, hC, hfil, hfn, List.length_nil, List.filter_nil,
    gt_iff_lt, lt_self_iff_false, if_false, Int.cast_zero, Nat.cast_zero, zero_div, ite_self,
    zero_add, h0]
  rw [roundTwoF_goDiv_of_den_ne _ _ hdur, roundTwoF_goDiv_of_den_ne _ _ hneg]
  simp [h0]

theorem C2_all_failures_zero_witness :
    ((mkSetup 100 1).Run [none] 2).1 =
      { Concurrency := 1
        GenerationSpeed := FloatVal.fin 0
        PromptThroughput := FloatVal.fin 0
        TotalThroughput := FloatVal.fin 0
        MaxTtft := 0
        MinTtft := 0
        AvgTtft := 0
        MedianTtft := 0
        P95Ttft := 0
        P99Ttft := 0
        StdDevTtft := 0
        SuccessRate := 0
        SuccessfulRequests := 0
        FailedRequests := 1
        TotalPromptTokens := 0
        TotalCompletionTokens := 0
        AvgPromptTokens := 0
        AvgCompletionTokens := 0
        Duration := 2 } := by
  have h := C2_all_failures_zero (mkSetup 100 1) [none] 2 (by simp)
    (by norm_num [mkSetup]) (by norm_num [mkSetup])
  rw [h]
  norm_num [mkSetup, roundToTwoDecimals, goRound, SpeedResult.mk.injEq]

/-- C3 counterexample: with one success of TTFT 0.125 s and 13 prompt tokens
at baseline latency 0, the reducer reports a prompt throughput of 100
(computed against the two-decimal rounding 0.13 of the maximum TTFT), while
the spec formula over the full-precision maximum TTFT gives 104 even after
its final two-decimal presentation rounding. -/
theorem C3_counterexample :
    ((mkSetup 0 1).Run [some ⟨1/8, 0, 13⟩] 1).1.PromptThroughput = FloatVal.fin 100
      ∧ roundToTwoDecimals (promptThroughputSpec 13 (1/8) 0) = 104
      ∧ (100 : ℚ) ≠ 104 := by
  refine ⟨?_, ?_, by norm_num⟩
  · simp only [SpeedMeasurement.Run, mkSetup, totalPromptTokensOf, totalCompletionTokensOf,
      successSamples, ttftValuesOf]
    norm_num [goDiv, roundToTwoDecimalsF, roundToTwoDecimals, goRound, List.filterMap_cons,
      List.sum_cons, List.foldl_cons, List.foldl_nil, List.headD]
  · norm_num [promptThroughputSpec, roundToTwoDecimals, goRound]

/-- C3 (amended): the two-decimal rounding is not confined to presentation:
the standard deviation is computed against the two-decimal-rounded mean TTFT
and the prompt throughput against the two-decimal-rounded maximum TTFT,
while the generation speed does use the full-precision duration. -/
theorem C3_intermediate_values_rounded (setup : SpeedMeasurement)
    (outcomes : List (Option Sample)) (duration : ℚ)
    (hne : ttftValuesOf outcomes ≠ []) :
    (setup.Run outcomes duration).1.StdDevTtft =
        roundToTwoDecimals (calculateStdDev (ttftValuesOf outcomes)
          (roundToTwoDecimals ((ttftValuesOf outcomes).sum
            / ((ttftValuesOf outcomes).length : ℚ))))
      ∧ (setup.Run outcomes duration).1.MaxTtft =
          roundToTwoDecimals (listMax (ttftValuesOf outcomes))
      ∧ (setup.Run outcomes duration).1.PromptThroughput =
          roundToTwoDecimalsF (goDiv (totalPromptTokensOf outcomes : ℚ)
            (roundToTwoDecimals (listMax (ttftValuesOf outcomes)) - setup.Latency / 1000))
      ∧ (setup.Run outcomes duration).1.GenerationSpeed =
          roundToTwoDecimalsF (goDiv (totalCompletionTokensOf outcomes : ℚ)
            (duration - setup.Latency / 1000)) := by
  have hlen : 0 < (ttftValuesOf outcomes).length := List.length_pos.mpr hne
  have hfold : (ttftValuesOf outcomes).foldl (fun m t => if t > m then t else m)
      ((ttftValuesOf outcomes).headD 0) = listMax (ttftValuesOf outcomes) :=
    foldl_if_gt_eq_foldl_max _ _
  simp only [SpeedMeasurement.Run, gt_iff_lt, hlen, if_true, hfold]
  exact ⟨trivial, trivial, trivial, trivial⟩

theorem C3_intermediate_values_rounded_witness :
    ((mkSetup 0 1).Run [some ⟨1/4, 10, 20⟩] 2).1.MaxTtft =
      roundToTwoDecimals (listMax (ttftValuesOf [some ⟨1/4, 10, 20⟩])) :=
  (C3_intermediate_values_rounded (mkSetup 0 1) [some ⟨1/4, 10, 20⟩] 2
    (by simp [ttftValuesOf, successSamples])).2.1

/-- C4 counterexample: with one success of TTFT 0.375 s and 3 prompt tokens
at baseline latency 0, the reducer reports a prompt throughput of 7.89
(namely 3 / 0.38, against the rounded maximum TTFT), while the claimed
formula over the observed maximum TTFT gives 3 / 0.375 = 8 exactly. -/
theorem C4_counterexample :
    ((mkSetup 0 1).Run [some ⟨3/8, 0, 3⟩] 1).1.PromptThroughput = FloatVal.fin (789/100)
      ∧ roundToTwoDecimals (promptThroughputSpec 3 (3/8) 0) = 8
      ∧ (789/100 : ℚ) ≠ 8 := by
  refine ⟨?_, ?_, by norm_num⟩
  · simp only [SpeedMeasurement.Run, mkSetup, totalPromptTokensOf, totalCompletionTokensOf,
      successSamples, ttftValuesOf]
    norm_num [goDiv, roundToTwoDecimalsF, roundToTwoDecimals, goRound, List.filterMap_cons,
      List.sum_cons, List.foldl_cons, List.foldl_nil, List.headD]
  · norm_num [promptThroughputSpec, roundToTwoDecimals, goRound]

/-- C4 (amended): for a run with at least one success, the prompt throughput
equals `round2(totalPromptTokens / (round2(maxTtft) - baselineLatencyMs/1000))`
where `maxTtft` is the slowest (maximum) observed TTFT across the successful
requests — the denominator uses the two-decimal rounding of that maximum,
not the full-precision maximum itself. -/
theorem C4_prompt_throughput_rounded_max (setup : SpeedMeasurement)
    (outcomes : List (Option Sample)) (duration : ℚ)
    (hne : ttftValuesOf outcomes ≠ [])
    (hden : roundToTwoDecimals (listMax (ttftValuesOf outcomes)) - setup.Latency / 1000 ≠ 0) :
    (setup.Run outcomes duration).1.PromptThroughput =
        FloatVal.fin (roundToTwoDecimals ((totalPromptTokensOf outcomes : ℚ)
          / (roundToTwoDecimals (listMax (ttftValuesOf outcomes)) - setup.Latency / 1000)))
      ∧ listMax (ttftValuesOf outcomes) ∈ ttftValuesOf outcomes
      ∧ ∀ x ∈ ttftValuesOf outcomes, x ≤ listMax (ttftValuesOf outcomes) := by
  have hlen : 0 < (ttftValuesOf outcomes).length := List.length_pos.mpr hne
  have hfold : (ttftValuesOf outcomes).foldl (fun m t => if t > m then t else m)
      ((ttftValuesOf outcomes).headD 0) = listMax (ttftValuesOf outcomes) :=
    foldl_if_gt_eq_foldl_max _ _
  refine ⟨?_, listMax_mem _ hne, fun x hx => le_listMax _ x hx⟩
  simp only [SpeedMeasurement.Run, gt_iff_lt, hlen, if_true, hfold]
  exact roundTwoF_goDiv_of_den_ne _ _ hden

theorem C4_prompt_throughput_rounded_max_witness :
    ((mkSetup 0 1).Run [some ⟨1/4, 10, 20⟩] 2).1.PromptThroughput =
      FloatVal.fin (roundToTwoDecimals ((totalPromptTokensOf [some ⟨1/4, 10, 20⟩] : ℚ)
        / (roundToTwoDecimals (listMax (ttftValuesOf [some ⟨1/4, 10, 20⟩]))
          - (mkSetup 0 1).Latency / 1000))) :=
  (C4_prompt_throughput_rounded_max (mkSetup 0 1) [some ⟨1/4, 10, 20⟩] 2
    (by simp [ttftValuesOf, successSamples])
    (by norm_num [mkSetup, listMax, ttftValuesOf, successSamples, List.filterMap_cons,
      List.headD_cons, List.foldl_cons, List.foldl_nil, max_self,
      roundToTwoDecimals, goRound])).1

/-- C7 counterexample: for the identical TTFT samples 0.125 and 0.125 the
reducer reports a standard deviation of 0.01, because it measures deviations
from the two-decimal-rounded mean 0.13, while the population standard
deviation of the values themselves is 0 even after the final two-decimal
rounding. -/
theorem C7_counterexample :
    ((mkSetup 0 2).Run [some ⟨1/8, 0, 0⟩, some ⟨1/8, 0, 0⟩] 1).1.StdDevTtft = 1/100
      ∧ roundToTwoDecimals (popStdDevSpec [1/8, 1/8]) = 0
      ∧ (1/100 : ℚ) ≠ 0 := by
  refine ⟨?_, ?_, by norm_num⟩
  · have h : calculateStdDev [1/8, 1/8] (13/100) = 1/200 := by
      have harg : ((([1/8, 1/8] : List ℚ).map (fun v => (v - 13/100) ^ 2)).sum
          / (([1/8, 1/8] : List ℚ).length : ℚ)) = (1/200 : ℚ) * (1/200) := by
        norm_num
      rw [calculateStdDev, if_neg (by norm_num), harg, Rat.sqrt_eq]
      norm_num
    simp only [SpeedMeasurement.Run, mkSetup, totalPromptTokensOf, totalCompletionTokensOf,
      successSamples, ttftValuesOf]
    norm_num [List.filterMap_cons, List.sum_cons, roundToTwoDecimals, goRound]
    rw [h]
    norm_num
  · have harg : ((([1/8, 1/8] : List ℚ).map
        (fun v => (v - ([1/8, 1/8] : List ℚ).sum / (([1/8, 1/8] : List ℚ).length : ℚ)) ^ 2)).sum
        / (([1/8, 1/8] : List ℚ).length : ℚ)) = (0 : ℚ) * 0 := by
      norm_num
    rw [popStdDevSpec, harg, Rat.sqrt_eq]
    norm_num [roundToTwoDecimals, goRound]

/-- C7 (amended): the reported standard deviation is
`round2(sqrt(sum((x_i - m)^2) / count))` with divisor the count (not
count - 1) and `m` the two-decimal-rounded mean TTFT; for a non-empty list
of identical TTFT values whose value is exact at two decimals the reported
standard deviation is 0, while other identical values can report a nonzero
deviation, as the counterexample shows. -/
theorem C7_stddev_identical_values (setup : SpeedMeasurement)
    (outcomes : List (Option Sample)) (duration : ℚ) (k : ℕ) (v : ℚ)
    (hvals : ttftValuesOf outcomes = List.replicate k v)
    (hk : 0 < k)
    (hv : roundToTwoDecimals v = v) :
    (setup.Run outcomes duration).1.StdDevTtft = 0 := by
  have hlen : 0 < (ttftValuesOf outcomes).length := by
    rw [hvals, List.length_replicate]
    exact hk
  have hkq : ((k : ℕ) : ℚ) ≠ 0 := Nat.cast_ne_zero.mpr (by omega)
  have havg : roundToTwoDecimals ((ttftValuesOf outcomes).sum
      / ((ttftValuesOf outcomes).length : ℚ)) = v := by
    rw [hvals, List.sum_replicate, List.length_replicate, nsmul_eq_mul,
      mul_div_cancel_left₀ v hkq, hv]
  have h00 : Rat.sqrt 0 = 0 := by
    have h := Rat.sqrt_eq (0 : ℚ)
    simp only [mul_zero, abs_zero] at h
    exact h
  have hsd : calculateStdDev (ttftValuesOf outcomes) v = 0 := by
    rw [hvals, calculateStdDev, if_neg (by rw [List.length_replicate]; omega)]
    have hmap : (List.replicate k v).map (fun x => (x - v) ^ 2) = List.replicate k 0 := by
      rw [List.map_replicate, sub_self, zero_pow]
      norm_num
    rw [hmap, List.sum_replicate, smul_zero, zero_div, h00]
  have h0 : roundToTwoDecimals 0 = 0 := by norm_num [roundToTwoDecimals, goRound]
  simp only [SpeedMeasurement.Run, gt_iff_lt, hlen, if_true, havg, hsd, h0]

theorem C7_stddev_identical_values_witness :
    ((mkSetup 0 1).Run [some ⟨1/4, 0, 0⟩] 1).1.StdDevTtft = 0 :=
  C7_stddev_identical_values (mkSetup 0 1) [some ⟨1/4, 0, 0⟩] 1 1 (1/4)
    (by simp [ttftValuesOf, successSamples, List.replicate_one])
    (by norm_num)
    (by norm_num [roundToTwoDecimals, goRound])
